import Mathlib

/-!
Verification of the dev-crew Job Orchestration Engine.

Shallow embedding of the engine's core (src/dev_crew/models.py,
runtime/budget.py, storage/sqlite.py, flow.py, services/jobs.py) together
with theorems settling the spec's claims about it.

Modelling conventions:
* Python exceptions are modelled with `Except String`; an `.error` value is a
  raised exception, and an operation that raises before mutating is modelled
  by a function whose `.error` branch returns no new state.
* Wall-clock timestamps (`datetime.now`) carry no logic and are omitted from
  the embedded records.
* `uuid.uuid4()` results are passed in explicitly as fresh-identifier inputs.
* `dict[str, Any]` metadata is embedded as an association list of `MetaValue`s.
-/

set_option maxRecDepth 4000

namespace DevCrew

/-- models.py JobState: the ten job states. -/
inductive JobState where
  | received
  | context_collecting
  | planning
  | awaiting_plan_approval
  | executing
  | auto_fixing
  | reporting
  | completed
  | failed
  | canceled
deriving DecidableEq, Repr

/-- The string value of each enum member (models.py lines 22-32). -/
def JobState.value : JobState → String
  | .received => "received"
  | .context_collecting => "context_collecting"
  | .planning => "planning"
  | .awaiting_plan_approval => "awaiting_plan_approval"
  | .executing => "executing"
  | .auto_fixing => "auto_fixing"
  | .reporting => "reporting"
  | .completed => "completed"
  | .failed => "failed"
  | .canceled => "canceled"

/-- models.py ALLOWED_STATE_TRANSITIONS (the Python sets become lists). -/
def ALLOWED_STATE_TRANSITIONS : JobState → List JobState
  | .received => [.context_collecting, .canceled, .failed]
  | .context_collecting => [.planning, .canceled, .failed]
  | .planning => [.awaiting_plan_approval, .executing, .canceled, .failed]
  | .awaiting_plan_approval => [.executing, .canceled, .failed]
  | .executing => [.auto_fixing, .reporting, .canceled, .failed]
  | .auto_fixing => [.executing, .canceled, .failed]
  | .reporting => [.completed, .failed]
  | .completed => []
  | .failed => []
  | .canceled => []

/-- services/jobs.py TERMINAL_STATES. -/
def TERMINAL_STATES : List JobState := [.completed, .failed, .canceled]

/-- A JSON-like metadata value (embedding of Python dict values actually
used by the engine: strings, numbers, booleans, lists of strings, nested
dicts). -/
inductive MetaValue where
  | str : String → MetaValue
  | nat : Nat → MetaValue
  | int : Int → MetaValue
  | bool : Bool → MetaValue
  | arr : List MetaValue → MetaValue
  | obj : List (String × MetaValue) → MetaValue

/-- Embedding of `dict[str, Any]` metadata maps. -/
abbrev Metadata := List (String × MetaValue)

/-- models.py JobEvent (the wall-clock `at` field is omitted). -/
structure JobEvent where
  state : JobState
  message : String
  metadata : Metadata := []

/-- models.py RetryPolicy (defaults as in source; the validator only
rejects non-positive values and is not needed by any claim). -/
structure RetryPolicy where
  llm_max_attempts : Nat := 5
  llm_backoff_schedule_seconds : List Nat := [1, 2, 4, 8, 16]
  llm_max_backoff_seconds : Nat := 32
  llm_timeout_seconds : Nat := 60
  llm_total_budget_seconds : Nat := 120
  auto_fix_max_rounds : Nat := 5

/-- models.py RateLimitPolicy. -/
structure RateLimitPolicy where
  job_requests_per_minute : Nat := 30
  system_requests_per_minute : Nat := 120
  burst : Nat := 10

/-- models.py JobRecord. -/
structure JobRecord where
  job_id : String
  goal : String
  repo : String
  base_branch : String := "main"
  work_branch : String
  current_state : JobState := .received
  history : List JobEvent := []
  retry_policy : RetryPolicy := {}
  rate_limit_policy : RateLimitPolicy := {}

/-- models.py JobRecord.transition_to: checks the edge against
ALLOWED_STATE_TRANSITIONS before any mutation; on success sets
current_state and appends one JobEvent.  Raising is modelled by `.error`
(with the record untouched, as in the source where the check precedes the
mutation). -/
def JobRecord.transition_to (r : JobRecord) (new_state : JobState)
    (message : String) (metadata : Metadata := []) : Except String JobRecord :=
  if new_state ∈ ALLOWED_STATE_TRANSITIONS r.current_state then
    .ok { r with
          current_state := new_state,
          history := r.history ++ [{ state := new_state, message := message,
                                     metadata := metadata }] }
  else
    .error ("Invalid transition: " ++ r.current_state.value ++ " -> "
            ++ new_state.value)

/-! ## runtime/budget.py -/

/-- budget.py JobBudgetConfig. -/
structure JobBudgetConfig where
  max_state_transitions : Nat := 20
  max_tool_calls : Nat := 10
deriving DecidableEq, Repr

/-- budget.py JobBudgetGuard's mutable fields. -/
structure JobBudgetGuard where
  config : JobBudgetConfig
  state_transitions : Nat
  tool_calls : Nat
deriving DecidableEq, Repr

/-- budget.py JobBudgetGuard.__init__(config, initial_transitions=0):
the transition counter starts at initial_transitions, the tool-call
counter at zero. -/
def JobBudgetGuard.init (config : JobBudgetConfig)
    (initial_transitions : Nat := 0) : JobBudgetGuard :=
  { config := config,
    state_transitions := initial_transitions,
    tool_calls := 0 }

/-- budget.py JobBudgetGuard.consume_transition: increment, then raise
JobBudgetExceededError when the incremented count exceeds the ceiling.
(In the source the increment survives the raise; the raise aborts the
pipeline, so the post-raise guard is never consulted again and the
`.error` branch drops it.) -/
def JobBudgetGuard.consume_transition (g : JobBudgetGuard) :
    Except String JobBudgetGuard :=
  let g' := { g with state_transitions := g.state_transitions + 1 }
  if g'.state_transitions > g.config.max_state_transitions then
    .error ("max_state_transitions exceeded: "
            ++ toString g'.state_transitions ++ "/"
            ++ toString g.config.max_state_transitions)
  else
    .ok g'

/-- budget.py JobBudgetGuard.consume_tool_call. -/
def JobBudgetGuard.consume_tool_call (g : JobBudgetGuard) :
    Except String JobBudgetGuard :=
  let g' := { g with tool_calls := g.tool_calls + 1 }
  if g'.tool_calls > g.config.max_tool_calls then
    .error ("max_tool_calls exceeded: " ++ toString g'.tool_calls ++ "/"
            ++ toString g.config.max_tool_calls)
  else
    .ok g'

/-- n successive consume_transition() calls (stopping at the first raise). -/
def consumeTransitionN (g : JobBudgetGuard) : Nat → Except String JobBudgetGuard
  | 0 => .ok g
  | n + 1 => (consumeTransitionN g n).bind JobBudgetGuard.consume_transition

/-- n successive consume_tool_call() calls (stopping at the first raise). -/
def consumeToolCallN (g : JobBudgetGuard) : Nat → Except String JobBudgetGuard
  | 0 => .ok g
  | n + 1 => (consumeToolCallN g n).bind JobBudgetGuard.consume_tool_call

/-! ## models.py plan/report types (used by flow.py) -/

/-- models.py AgentTask. -/
structure AgentTask where
  id : String
  title : String
  owner_agent : String
  depends_on : List String := []
  acceptance_criteria : List String := []

/-- models.py PullRequestDraft. -/
structure PullRequestDraft where
  title : String
  body : String

/-- models.py ApprovalPolicy. -/
structure ApprovalPolicy where
  requires_plan_approval : Bool := true

/-- models.py PlanV1. -/
structure PlanV1 where
  tasks : List AgentTask := []
  files_to_change : List String := []
  commands : List String := []
  test_matrix : List String := []
  pr : PullRequestDraft
  risks : List String := []
  approvals : ApprovalPolicy := {}

/-- models.py ReportV1. -/
structure ReportV1 where
  run_summary : String
  links : List String := []
  failures : List String := []
  next_actions : List String := []

/-! ## flow.py JobRunner auto-fix loop

The injected `build_executor(job, plan)` is a stateful Python callable; it
is embedded as a function of the attempt number (1-based) plus the
arguments the source passes, so that successive calls may differ. -/

/-- flow.py JobRunner._execute_with_auto_fix's while-loop, entered with the
current report and round_index; retries while failures remain and
round_index < max_rounds, recording AUTO_FIXING → EXECUTING transitions.
Transition errors propagate as in the source. -/
def JobRunner.auto_fix_go (build_executor : Nat → JobRecord → PlanV1 → ReportV1)
    (plan : PlanV1) (max_rounds : Nat) (job : JobRecord) (report : ReportV1)
    (round_index : Nat) : Except String (JobRecord × ReportV1 × Nat) :=
  if h : report.failures ≠ [] ∧ round_index < max_rounds then
    match job.transition_to .auto_fixing "Build failed, starting auto-fix round"
        [("round", .nat round_index), ("max_rounds", .nat max_rounds),
         ("failures", .arr (report.failures.map .str))] with
    | .error e => .error e
    | .ok j1 =>
      match j1.transition_to .executing "Retrying build after auto-fix round"
          [("next_round", .nat (round_index + 1))] with
      | .error e => .error e
      | .ok j2 =>
        JobRunner.auto_fix_go build_executor plan max_rounds j2
          (build_executor (round_index + 1) j2 plan) (round_index + 1)
  else
    .ok (job, report, round_index)
termination_by max_rounds - round_index
decreasing_by omega

/-- flow.py JobRunner._execute_with_auto_fix.  The returned Nat is the
final round_index — the number of build_executor attempts made — which the
source keeps in a local variable; it is returned here to expose the
attempt count. -/
def JobRunner.execute_with_auto_fix (job : JobRecord) (plan : PlanV1)
    (build_executor : Nat → JobRecord → PlanV1 → ReportV1) :
    Except String (JobRecord × ReportV1 × Nat) :=
  JobRunner.auto_fix_go build_executor plan job.retry_policy.auto_fix_max_rounds
    job (build_executor 1 job plan) 1

/-- Number of AUTO_FIXING events in a history. -/
def countAutoFix (h : List JobEvent) : Nat :=
  h.countP (fun e => decide (e.state = .auto_fixing))

/-! ## storage/sqlite.py -/

/-- sqlite.py EventRow (the `at` text column is omitted; `state` keeps the
enum whose TEXT encoding `JobState.value` is injective; `metadata_json`
keeps the structured metadata whose JSON encoding round-trips). -/
structure EventRow where
  id : Nat
  job_id : String
  state : JobState
  message : String
  metadata_json : Metadata

/-- jobs.py JobService._request_hash fingerprint.  The source hashes the
canonical sorted-key JSON encoding of (goal, repo, base_branch) with
sha256; the hash is modelled by the payload triple itself, an injective
stand-in for the collision-free digest of the canonical encoding. -/
def requestHash (goal repo base_branch : String) : String × String × String :=
  (goal, repo, base_branch)

/-- The sqlite database state: the jobs table (whose rows carry no
history — history lives in job_events, so stored JobRecords keep an empty
`history` field), the job_events table with its AUTOINCREMENT counter
`nextId`, and the idempotency_keys table (key, request_hash, job_id). -/
structure StoreState where
  jobs : List JobRecord := []
  rows : List EventRow := []
  nextId : Nat := 1
  idempotency : List (String × (String × String × String) × String) := []

/-- Seed events of sqlite.py create_job: each history event becomes a row,
ids assigned in insertion order starting at `start`. -/
def numberRows (start : Nat) (job_id : String) : List JobEvent → List EventRow
  | [] => []
  | e :: rest =>
    ⟨start, job_id, e.state, e.message, e.metadata⟩
      :: numberRows (start + 1) job_id rest

/-- sqlite.py SqliteJobStore.create_job: inserts the jobs row and one
job_events row per seed history event, in one transaction. -/
def StoreState.create_job (st : StoreState) (job : JobRecord) : StoreState :=
  { st with
    jobs := st.jobs ++ [{ job with history := [] }],
    rows := st.rows ++ numberRows st.nextId job.job_id job.history,
    nextId := st.nextId + job.history.length }

/-- sqlite.py SqliteJobStore.append_event: atomically inserts one
job_events row (taking the next AUTOINCREMENT id) and updates the job's
denormalized current_state. -/
def StoreState.append_event (st : StoreState) (job_id : String)
    (e : JobEvent) : StoreState :=
  { st with
    rows := st.rows ++ [⟨st.nextId, job_id, e.state, e.message, e.metadata⟩],
    nextId := st.nextId + 1,
    jobs := st.jobs.map (fun j =>
      if j.job_id == job_id then { j with current_state := e.state } else j) }

/-- ORDER BY id ASC of a row list (SQL sorts by id regardless of the
physical insertion order). -/
def sortById (rows : List EventRow) : List EventRow :=
  rows.insertionSort (fun a b => a.id ≤ b.id)

/-- sqlite.py SqliteJobStore.get_job: reconstructs the record, replaying
the job's event rows in id order into the history. -/
def StoreState.get_job (st : StoreState) (job_id : String) : Option JobRecord :=
  (st.jobs.find? (fun j => j.job_id == job_id)).map (fun j =>
    let events := (sortById (st.rows.filter (fun r => r.job_id == job_id))).map
      (fun r => ({ state := r.state, message := r.message,
                   metadata := r.metadata_json } : JobEvent))
    { j with history := events })

/-- sqlite.py SqliteJobStore.list_event_rows: rows of the job with id
strictly above the cursor, ORDER BY id ASC. -/
def StoreState.list_event_rows (st : StoreState) (job_id : String)
    (after_id : Nat := 0) : List EventRow :=
  sortById (st.rows.filter (fun r => r.job_id == job_id && after_id < r.id))

/-- sqlite.py SqliteJobStore.get_idempotency. -/
def StoreState.get_idempotency (st : StoreState) (key : String) :
    Option ((String × String × String) × String) :=
  (st.idempotency.find? (fun kv => kv.1 == key)).map (fun kv => kv.2)

/-- sqlite.py SqliteJobStore.create_idempotency (only reached when the key
is absent, so the PRIMARY KEY insert cannot conflict). -/
def StoreState.create_idempotency (st : StoreState) (key : String)
    (request_hash : String × String × String) (job_id : String) : StoreState :=
  { st with idempotency := st.idempotency ++ [(key, request_hash, job_id)] }

/-- Well-formedness of the database the engine maintains: event-row ids
are strictly increasing in insertion order and below the AUTOINCREMENT
counter. -/
def StoreState.WF (st : StoreState) : Prop :=
  st.rows.Pairwise (fun a b => a.id < b.id) ∧ ∀ r ∈ st.rows, r.id < st.nextId

/-! ## runtime/escalation.py, runtime/audit.py and collaborator results -/

/-- escalation.py EscalationRecord (the `at` timestamp is omitted). -/
structure EscalationRecord where
  escalation_id : String
  job_id : String
  severity : String
  reason : String
  metadata : Metadata

/-- One line of audit.py JsonlAuditLogger (timestamp and free-form
metadata omitted; category and action identify the entry). -/
structure AuditEntry where
  job_id : String
  category : String
  action : String

/-- sandbox.py SandboxResult. -/
structure SandboxResult where
  command : List String
  returncode : Int
  stdout : String
  stderr : String
  duration_ms : Nat
  sandbox : String

/-- A CrewAI task entry as consumed by jobs.py (`task.get("role")` etc.:
absent keys are `none` and the source substitutes defaults). -/
structure CrewTask where
  role : Option String := none
  phase : Option String := none
  name : Option String := none
  async_execution : Bool := false

/-- The `workflow` sub-dict of the orchestrator metadata. -/
structure CrewWorkflow where
  pan_out_roles : List String := []
  pan_in_roles : List String := []

/-- The orchestrator result metadata consumed by jobs.py. -/
structure CrewMetadata where
  tasks : List CrewTask := []
  workflow : CrewWorkflow := {}

/-- orchestration CrewAIOrchestrator.run result. -/
structure CrewResult where
  summary : String
  metadata : CrewMetadata
  raw_output : Option String := none

/-- Metadata encoding of a crew task dict (used where jobs.py stores the
orchestrator metadata verbatim into event metadata). -/
def CrewTask.toMeta (t : CrewTask) : MetaValue :=
  .obj ((match t.role with | some r => [("role", MetaValue.str r)] | none => [])
    ++ (match t.phase with | some p => [("phase", MetaValue.str p)] | none => [])
    ++ (match t.name with | some n => [("name", MetaValue.str n)] | none => [])
    ++ [("async_execution", MetaValue.bool t.async_execution)])

/-- Metadata encoding of the whole orchestrator metadata dict. -/
def CrewMetadata.toMeta (m : CrewMetadata) : MetaValue :=
  .obj [("tasks", .arr (m.tasks.map CrewTask.toMeta)),
        ("workflow", .obj
          [("pan_out_roles", .arr (m.workflow.pan_out_roles.map .str)),
           ("pan_in_roles", .arr (m.workflow.pan_in_roles.map .str))])]

/-! ## services/jobs.py JobService

The service's effectful context is split into
* `WorldState` — the durable store, the queue, and the append-only audit
  and escalation logs, plus call counters instrumenting the fallible
  effects (store appends, sandbox runs, escalation-file writes);
* `PipelineEnv` — the injected collaborators and the fault behaviour of
  each effect: `orchestrator_run` and `sandbox_run` may raise
  (`.error` = a raised Python exception), `append_outcome k`/
  `escalation_write k` give the outcome of the k-th store append /
  escalation-file write (`none` = success, `some e` = an exception e).
Audit-log writes carry no return value the engine inspects and are
modelled as infallible appends. -/

/-- jobs.py CreateJobResult. -/
structure CreateJobResult where
  job : JobRecord
  reused : Bool

/-- The world as seen by the JobService: store, queue and logs, plus
effect call counters. -/
structure WorldState where
  store : StoreState := {}
  queued : List String := []
  audit : List AuditEntry := []
  escalations : List EscalationRecord := []
  append_calls : Nat := 0
  sandbox_calls : Nat := 0
  escalation_writes : Nat := 0

/-- The collaborators and fault model injected into the service. -/
structure PipelineEnv where
  budget_config : JobBudgetConfig := {}
  orchestrator_run : JobRecord → Except String CrewResult
  sandbox_run : Nat → Except String SandboxResult
  append_outcome : Nat → Option String := fun _ => none
  escalation_write : Nat → Option String := fun _ => none
  fresh_escalation_id : String := "esc-1"

/-- The in-flight state while one job is processed: the in-memory record,
its budget guard, and the world. -/
structure PipelineState where
  job : JobRecord
  guard : JobBudgetGuard
  world : WorldState

/-- One store.append_event call: the call counter always advances; on
success the row is inserted and the denormalized state updated in one
transaction, a raised exception leaves the database untouched. -/
def storeAppend (env : PipelineEnv) (st : PipelineState) (job_id : String)
    (e : JobEvent) : PipelineState × Except String Unit :=
  let w := { st.world with append_calls := st.world.append_calls + 1 }
  match env.append_outcome st.world.append_calls with
  | some err => ({ st with world := w }, .error err)
  | none =>
    ({ st with world := { w with store := w.store.append_event job_id e } },
     .ok ())

/-- One audit_logger.log call (audit.py appends one JSONL line). -/
def auditLog (st : PipelineState) (job_id category action : String) :
    PipelineState :=
  { st with world := { st.world with
      audit := st.world.audit ++ [⟨job_id, category, action⟩] } }

/-- escalation.py EscalationManager.create: builds the record, appends it
to the escalation log (fallible file write), then mirrors it into the
audit log. -/
def escalationCreate (env : PipelineEnv) (st : PipelineState)
    (severity reason : String) (metadata : Metadata) :
    PipelineState × Except String EscalationRecord :=
  let record : EscalationRecord :=
    ⟨env.fresh_escalation_id, st.job.job_id, severity, reason, metadata⟩
  let w := { st.world with
             escalation_writes := st.world.escalation_writes + 1 }
  match env.escalation_write st.world.escalation_writes with
  | some err => ({ st with world := w }, .error err)
  | none =>
    (auditLog { st with world := { w with
        escalations := w.escalations ++ [record] } }
      st.job.job_id "escalation" "created",
     .ok record)

/-- jobs.py JobService._advance: budget check, transition_to with
enriched state_transition metadata, store append, audit entry.  Each
partial effect that precedes a raise survives it, as in the source (the
guard increment, and the in-memory transition when the store append
raises). -/
def JobService.advance (env : PipelineEnv) (st : PipelineState)
    (state : JobState) (message : String) (metadata : Metadata := [])
    (enforce_budget : Bool := true) : PipelineState × Except String Unit :=
  let afterBudget : PipelineState × Except String Unit :=
    if enforce_budget then
      match st.guard.consume_transition with
      | .error e =>
        ({ st with guard := { st.guard with
             state_transitions := st.guard.state_transitions + 1 } }, .error e)
      | .ok g => ({ st with guard := g }, .ok ())
    else
      (st, .ok ())
  match afterBudget with
  | (st1, .error e) => (st1, .error e)
  | (st1, .ok _) =>
    let previous_state := st1.job.current_state
    let call_order := st1.job.history.length + 1
    let enriched : Metadata :=
      [("event_type", .str "state_transition"),
       ("from_state", .str previous_state.value),
       ("to_state", .str state.value),
       ("call_order", .nat call_order)] ++ metadata
    match st1.job.transition_to state message enriched with
    | .error e => (st1, .error e)
    | .ok job' =>
      let st2 := { st1 with job := job' }
      let event : JobEvent :=
        { state := state, message := message, metadata := enriched }
      match storeAppend env st2 job'.job_id event with
      | (st3, .error e) => (st3, .error e)
      | (st3, .ok _) =>
        (auditLog st3 job'.job_id "state_transition"
           (previous_state.value ++ "->" ++ state.value), .ok ())

/-- jobs.py JobService._record_workflow_step: appends a workflow_step
event to the in-memory history, then persists it and audits it.  The
in-memory append precedes the store write, as in the source. -/
def JobService.record_workflow_step (env : PipelineEnv) (st : PipelineState)
    (step phase message : String) (details : Metadata := []) :
    PipelineState × Except String Unit :=
  let call_order := st.job.history.length + 1
  let metadata : Metadata :=
    [("event_type", .str "workflow_step"), ("step", .str step),
     ("phase", .str phase), ("call_order", .nat call_order),
     ("details", .obj details)]
  let event : JobEvent :=
    { state := st.job.current_state, message := message, metadata := metadata }
  let st1 := { st with job :=
    { st.job with history := st.job.history ++ [event] } }
  match storeAppend env st1 st1.job.job_id event with
  | (st2, .error e) => (st2, .error e)
  | (st2, .ok _) =>
    (auditLog st2 st1.job.job_id "workflow" (step ++ ":" ++ phase), .ok ())

/-- jobs.py JobService._record_agent_decisions: one agent_decision event
per orchestrator task, with the source's defaulting for absent keys. -/
def JobService.record_agent_decisions (env : PipelineEnv)
    (st : PipelineState) : List CrewTask → PipelineState × Except String Unit
  | [] => (st, .ok ())
  | task :: rest =>
    let role := task.role.getD "unknown"
    let phase := task.phase.getD (if role != "leader" then "pan_out" else "pan_in")
    let task_name := task.name.getD "unknown"
    let call_order := st.job.history.length + 1
    let metadata : Metadata :=
      [("event_type", .str "agent_decision"), ("agent_role", .str role),
       ("task_name", .str task_name), ("phase", .str phase),
       ("call_order", .nat call_order),
       ("decision", .str (role ++ " planned task " ++ task_name)),
       ("async_execution", .bool task.async_execution)]
    let event : JobEvent :=
      { state := st.job.current_state,
        message := "Agent decision recorded: " ++ role ++ " -> " ++ task_name,
        metadata := metadata }
    let st1 := { st with job :=
      { st.job with history := st.job.history ++ [event] } }
    match storeAppend env st1 st1.job.job_id event with
    | (st2, .error e) => (st2, .error e)
    | (st2, .ok _) =>
      JobService.record_agent_decisions env
        (auditLog st2 st1.job.job_id "agent" "decision_recorded") rest

/-- jobs.py JobService._run_build_in_sandbox: tool-call budget check, one
sandbox run (raises on non-zero/engine error), audit entry, then an
execution workflow step whose phase reflects the returncode. -/
def JobService.run_build_in_sandbox (env : PipelineEnv)
    (st : PipelineState) : PipelineState × Except String Unit :=
  match st.guard.consume_tool_call with
  | .error e =>
    ({ st with guard := { st.guard with
         tool_calls := st.guard.tool_calls + 1 } }, .error e)
  | .ok g =>
    let st1 := { st with
                 guard := g,
                 world := { st.world with
                   sandbox_calls := st.world.sandbox_calls + 1 } }
    match env.sandbox_run st.world.sandbox_calls with
    | .error e => (st1, .error e)
    | .ok result =>
      let st2 := auditLog st1 st1.job.job_id "tool_call" "sandbox_run"
      JobService.record_workflow_step env st2 "execution"
        (if result.returncode == 0 then "completed" else "failed")
        "Sandbox test execution finished"
        [("command", .arr (result.command.map .str)),
         ("returncode", .int result.returncode),
         ("duration_ms", .nat result.duration_ms)]

/-- Sequencing of the pipeline's statements: stop at the first raised
exception, keeping the state reached so far. -/
def pstep (x : PipelineState × Except String Unit)
    (f : PipelineState → PipelineState × Except String Unit) :
    PipelineState × Except String Unit :=
  match x with
  | (st, .ok _) => f st
  | (st, .error e) => (st, .error e)

/-- jobs.py JobService._count_state_transitions. -/
def countStateTransitionsFrom (previous_state : JobState) :
    List JobEvent → Nat
  | [] => 0
  | e :: rest =>
    if e.state ≠ previous_state then
      1 + countStateTransitionsFrom e.state rest
    else
      countStateTransitionsFrom previous_state rest

/-- jobs.py JobService._count_state_transitions: number of real state
changes along the stored history. -/
def JobService.count_state_transitions (job : JobRecord) : Nat :=
  match job.history with
  | [] => 0
  | e :: rest => countStateTransitionsFrom e.state rest

/-- The budget guard process_job constructs (jobs.py lines 197-200):
seeded with the count of real transitions already in history. -/
def JobService.initial_guard (config : JobBudgetConfig) (job : JobRecord) :
    JobBudgetGuard :=
  JobBudgetGuard.init config (JobService.count_state_transitions job)

/-- The body of process_job's try block (jobs.py lines 202-295): the
strictly ordered pipeline CONTEXT_COLLECTING → orchestrator fan-out →
PLANNING → AWAITING_PLAN_APPROVAL → EXECUTING → one sandbox attempt →
REPORTING → COMPLETED, with workflow_step/agent_decision events along the
way. -/
def JobService.pipeline_try (env : PipelineEnv) (st0 : PipelineState) :
    PipelineState × Except String Unit :=
  pstep (JobService.advance env st0 .context_collecting
      "Collecting repository context") fun st =>
  pstep (JobService.record_workflow_step env st "pan_out" "started"
      "Fan-out started for specialist agents") fun st =>
  match env.orchestrator_run st.job with
  | .error e => (st, .error e)
  | .ok crew_result =>
  pstep (JobService.record_workflow_step env st "pan_out" "completed"
      "Fan-out completed for specialist agents"
      [("roles", .arr (crew_result.metadata.workflow.pan_out_roles.map .str)),
       ("task_count", .nat crew_result.metadata.tasks.length)]) fun st =>
  pstep (JobService.record_agent_decisions env st
      crew_result.metadata.tasks) fun st =>
  pstep (JobService.record_workflow_step env st "pan_in" "completed"
      "Leader pan-in synthesis completed"
      [("roles", .arr (crew_result.metadata.workflow.pan_in_roles.map .str)),
       ("summary", .str crew_result.summary)]) fun st =>
  pstep (JobService.advance env st .planning
      "Running CrewAI leader fan-out for specialist agents"
      [("crewai_summary", .str crew_result.summary),
       ("crewai", crew_result.metadata.toMeta)]) fun st =>
  pstep (JobService.record_workflow_step env st "aggregation" "completed"
      "Specialist outputs aggregated into plan context"
      [("crewai_summary", .str crew_result.summary)]) fun st =>
  pstep (auditLog st st.job.job_id "crewai" "orchestration", .ok ()) fun st =>
  pstep (JobService.advance env st .awaiting_plan_approval
      "Plan approval checkpoint reached (manual gate)") fun st =>
  pstep (JobService.advance env st .executing
      "Executing implementation and test workflow") fun st =>
  pstep (JobService.run_build_in_sandbox env st) fun st =>
  pstep (JobService.advance env st .reporting
      "Generating execution report") fun st =>
  pstep (JobService.advance env st .completed "Job completed") fun st =>
  JobService.record_workflow_step env st "final_conclusion" "completed"
    "Final conclusion recorded" [("result", .str "completed")]

/-- The except-branch of process_job (jobs.py lines 296-331): a
final_conclusion failure step whose own failure is swallowed, then the
escalation record (whose write is NOT protected by a try/except — a raise
here escapes process_job), then, when the job is still non-terminal, a
best-effort FAILED transition whose failure is swallowed. -/
def JobService.pipeline_handler (env : PipelineEnv) (st : PipelineState)
    (exc : String) : PipelineState × Except String Unit :=
  let st1 := (JobService.record_workflow_step env st "final_conclusion"
      "failed" "Final conclusion recorded"
      [("result", .str "failed"), ("error", .str exc),
       ("failed_state", .str st.job.current_state.value)]).1
  match escalationCreate env st1 "high" "Job processing failed"
      [("error", .str exc), ("state", .str st1.job.current_state.value)] with
  | (st2, .error e) => (st2, .error e)
  | (st2, .ok escalation) =>
    if st2.job.current_state ∈ TERMINAL_STATES then
      (st2, .ok ())
    else
      ((JobService.advance env st2 .failed "Job failed during processing"
          [("error", .str exc),
           ("escalation_id", .str escalation.escalation_id)] false).1,
       .ok ())

/-- The PipelineState process_job starts from for a fetched job. -/
def JobService.entry_state (env : PipelineEnv) (w : WorldState)
    (job : JobRecord) : PipelineState :=
  { job := job,
    guard := JobService.initial_guard env.budget_config job,
    world := w }

/-- jobs.py JobService.process_job: no-op when the job is missing or
terminal; otherwise runs the pipeline under the top-level exception
handler. -/
def JobService.process_job (env : PipelineEnv) (w : WorldState)
    (job_id : String) : WorldState × Except String Unit :=
  match w.store.get_job job_id with
  | none => (w, .ok ())
  | some job =>
    if job.current_state ∈ TERMINAL_STATES then
      (w, .ok ())
    else
      let result :=
        match JobService.pipeline_try env (JobService.entry_state env w job) with
        | (st, .ok _) => (st, Except.ok ())
        | (st, .error exc) => JobService.pipeline_handler env st exc
      (result.1.world, result.2)

/-- The seed RECEIVED event of jobs.py JobService.create_job. -/
def seedEvent (goal repo base_branch work_branch : String)
    (idempotency_key : Option String) : JobEvent :=
  { state := .received,
    message := "Job created",
    metadata :=
      [("idempotency_key", .str (idempotency_key.getD "")),
       ("event_type", .str "workflow_step"),
       ("step", .str "request"),
       ("phase", .str "received"),
       ("call_order", .nat 1),
       ("details", .obj
         [("goal", .str goal), ("repo", .str repo),
          ("base_branch", .str base_branch),
          ("work_branch", .str work_branch)])] }

/-- jobs.py JobService.create_job.  `freshId` stands for the
`uuid.uuid4()` result.  A raised exception (idempotency conflict, missing
idempotent job) happens before any write, so the error branch returns the
world unchanged. -/
def JobService.create_job (w : WorldState) (freshId : String)
    (goal repo : String) (base_branch : String := "main")
    (idempotency_key : Option String := none) :
    WorldState × Except String CreateJobResult :=
  let request_hash := requestHash goal repo base_branch
  let reuse : Option (WorldState × Except String CreateJobResult) :=
    match idempotency_key with
    | none => none
    | some key =>
      match w.store.get_idempotency key with
      | none => none
      | some (stored_hash, job_id) =>
        if stored_hash ≠ request_hash then
          some (w, .error
            "idempotency key already used with different request payload")
        else
          match w.store.get_job job_id with
          | none => some (w, .error ("idempotent job not found: " ++ job_id))
          | some existing_job => some (w, .ok ⟨existing_job, true⟩)
  match reuse with
  | some out => out
  | none =>
    let job_id := freshId
    let work_branch := "crew/" ++ freshId.take 8
    let job : JobRecord :=
      { job_id := job_id, goal := goal, repo := repo,
        base_branch := base_branch, work_branch := work_branch,
        history := [seedEvent goal repo base_branch work_branch
          idempotency_key] }
    let st1 := w.store.create_job job
    let audit1 := w.audit
      ++ [⟨job_id, "job", "created"⟩, ⟨job_id, "workflow", "request:received"⟩]
    let st2 :=
      match idempotency_key with
      | some key => st1.create_idempotency key request_hash job_id
      | none => st1
    ({ w with
       store := st2,
       audit := audit1,
       queued := w.queued ++ [job_id] },
     .ok ⟨job, false⟩)

/-- True when a metadata map marks a sandbox execution workflow step:
jobs.py _run_build_in_sandbox records exactly one workflow_step event
with step="execution" per consumed sandbox tool call. -/
def isExecutionStep (md : Metadata) : Bool :=
  md.any (fun kv => kv.1 == "step" &&
    (match kv.2 with | .str s => s == "execution" | _ => false))

/-- Number of sandbox tool calls evidenced in a stored history. -/
def toolCallEvidence (h : List JobEvent) : Nat :=
  h.countP (fun e => isExecutionStep e.metadata)

/-- A sample job record used to instantiate witness theorems. -/
def sampleJob : JobRecord :=
  { job_id := "job-1", goal := "Implement API", repo := "org/repo",
    work_branch := "crew/job-1" }

/-- A job interrupted right after its first sandbox attempt: four real
state transitions and one execution workflow step in the stored
history.  Used to exhibit the tool-call-counter reset on resume. -/
def resumedJob : JobRecord :=
  { sampleJob with
    current_state := .executing,
    history :=
      [seedEvent "Implement API" "org/repo" "main" "crew/job-1" none,
       { state := .context_collecting, message := "Collecting repository context" },
       { state := .planning, message := "Running CrewAI leader fan-out for specialist agents" },
       { state := .awaiting_plan_approval, message := "Plan approval checkpoint reached (manual gate)" },
       { state := .executing, message := "Executing implementation and test workflow" },
       { state := .executing, message := "Sandbox test execution finished",
         metadata :=
           [("event_type", .str "workflow_step"), ("step", .str "execution"),
            ("phase", .str "failed"), ("call_order", .nat 6),
            ("details", .obj [])] }] }

/-- A sample job sitting at EXECUTING with a two-round auto-fix budget,
for the auto-fix-loop witnesses. -/
def execJob : JobRecord :=
  { sampleJob with
    current_state := .executing,
    retry_policy := { auto_fix_max_rounds := 2 } }

/-- A minimal plan for the auto-fix-loop witnesses. -/
def samplePlan : PlanV1 :=
  { pr := { title := "t", body := "b" } }

/-- A build executor that fails on attempt 1 and succeeds from attempt 2
on. -/
def flakyExec : Nat → JobRecord → PlanV1 → ReportV1 :=
  fun k _ _ =>
    if k < 2 then { run_summary := "attempt failed", failures := ["test_api"] }
    else { run_summary := "ok" }

/-- A fault-free environment with a trivial orchestrator and a clean
sandbox, for witnesses and the happy-path theorem. -/
def sampleEnv : PipelineEnv :=
  { orchestrator_run := fun _ =>
      .ok { summary := "plan ready",
            metadata := { tasks := [{ role := some "leader" }] } },
    sandbox_run := fun _ =>
      .ok { command := ["docker", "run"], returncode := 0, stdout := "",
            stderr := "", duration_ms := 10, sandbox := "docker" } }

/-- True when a metadata map marks a state_transition event (as written
by jobs.py _advance). -/
def isStateTransition (md : Metadata) : Bool :=
  md.any (fun kv => kv.1 == "event_type" &&
    (match kv.2 with | .str s => s == "state_transition" | _ => false))

/-- The world right after one unkeyed submission: one RECEIVED job in the
store and its seed event row. -/
def sampleWorld : WorldState :=
  (JobService.create_job {} "job-1" "Implement API" "org/repo" "main" none).1

/-- The job record get_job reconstructs from sampleWorld. -/
def fetchedJob : JobRecord :=
  { job_id := "job-1", goal := "Implement API", repo := "org/repo",
    base_branch := "main", work_branch := "crew/job-1",
    history := [seedEvent "Implement API" "org/repo" "main" "crew/job-1" none] }

/-- An environment whose orchestrator raises (a CollaboratorFailure) and
whose other effects succeed. -/
def orchFailEnv : PipelineEnv :=
  { orchestrator_run := fun _ => .error "CrewAI orchestration failed",
    sandbox_run := fun _ =>
      .ok { command := ["docker", "run"], returncode := 0, stdout := "",
            stderr := "", duration_ms := 10, sandbox := "docker" } }

/-- An environment whose orchestrator raises and whose escalation-log
file write also raises (e.g. a full disk). -/
def escalationFailEnv : PipelineEnv :=
  { orchestrator_run := fun _ => .error "CrewAI orchestration failed",
    sandbox_run := fun _ =>
      .ok { command := ["docker", "run"], returncode := 0, stdout := "",
            stderr := "", duration_ms := 10, sandbox := "docker" },
    escalation_write := fun _ => some "disk full: escalations.log" }

/-- An environment whose single sandbox attempt raises, as
DockerSandboxExecutor.run does whenever the command exits non-zero. -/
def sandboxFailEnv : PipelineEnv :=
  { orchestrator_run := fun _ =>
      .ok { summary := "plan ready", metadata := { tasks := [] } },
    sandbox_run := fun _ =>
      .error "docker sandbox command failed (rc=1): pytest -q" }

/-- The invariant of §3: current_state equals the state of the last
history entry (stated for nonempty histories). -/
def stateMatchesLast (r : JobRecord) : Prop :=
  ∀ e, r.history.getLast? = some e → r.current_state = e.state

/-- A concrete event table for the cursoring witnesses. -/
def sampleStore : StoreState :=
  { jobs := [],
    rows := [⟨1, "job-1", .received, "Job created", []⟩,
             ⟨2, "job-1", .context_collecting, "Collecting repository context", []⟩,
             ⟨3, "job-2", .received, "Job created", []⟩],
    nextId := 4 }

/-! ## Theorems about the state machine and the budget guard -/

/-- Unfolding lemma: a legal edge produces exactly the updated record. -/
lemma transition_to_allowed (r : JobRecord) (s : JobState) (msg : String)
    (md : Metadata) (h : s ∈ ALLOWED_STATE_TRANSITIONS r.current_state) :
    r.transition_to s msg md
      = .ok { r with
              current_state := s,
              history := r.history
                ++ [{ state := s, message := msg, metadata := md }] } := by
  simp [JobRecord.transition_to, h]

/-- Unfolding lemma: an illegal edge raises InvalidTransition. -/
lemma transition_to_not_allowed (r : JobRecord) (s : JobState) (msg : String)
    (md : Metadata) (h : s ∉ ALLOWED_STATE_TRANSITIONS r.current_state) :
    r.transition_to s msg md
      = .error ("Invalid transition: " ++ r.current_state.value ++ " -> "
                ++ s.value) := by
  simp [JobRecord.transition_to, h]

lemma consumeTransitionN_ok (cfg : JobBudgetConfig) (s t n : Nat)
    (h : s + n ≤ cfg.max_state_transitions) :
    consumeTransitionN ⟨cfg, s, t⟩ n = .ok ⟨cfg, s + n, t⟩ := by
  induction n with
  | zero => rfl
  | succ n ih =>
    have hn : s + n ≤ cfg.max_state_transitions := by omega
    rw [consumeTransitionN, ih hn]
    simp only [Except.bind, JobBudgetGuard.consume_transition]
    have hgt : ¬ (s + n + 1 > cfg.max_state_transitions) := by omega
    simp only [gt_iff_lt]
    rw [if_neg (by omega)]
    simp [Nat.add_assoc]

lemma consumeToolCallN_ok (cfg : JobBudgetConfig) (s t n : Nat)
    (h : t + n ≤ cfg.max_tool_calls) :
    consumeToolCallN ⟨cfg, s, t⟩ n = .ok ⟨cfg, s, t + n⟩ := by
  induction n with
  | zero => rfl
  | succ n ih =>
    have hn : t + n ≤ cfg.max_tool_calls := by omega
    rw [consumeToolCallN, ih hn]
    simp only [Except.bind, JobBudgetGuard.consume_tool_call]
    simp only [gt_iff_lt]
    rw [if_neg (by omega)]
    simp [Nat.add_assoc]

/-- C2: transition_to succeeds exactly when the new state is in
ALLOWED_STATE_TRANSITIONS of the current state; on failure it raises
(returns `.error`, touching nothing — the source checks the edge before
mutating); on success it appends exactly one JobEvent carrying the new
state and sets current_state to it; terminal states, having no outgoing
edges, reject every call. -/
theorem transition_to_correct (r : JobRecord) (s : JobState) (msg : String)
    (md : Metadata) :
    ((∃ r', r.transition_to s msg md = .ok r') ↔
        s ∈ ALLOWED_STATE_TRANSITIONS r.current_state)
    ∧ (∀ r', r.transition_to s msg md = .ok r' →
        r'.current_state = s
        ∧ r'.history = r.history
            ++ [{ state := s, message := msg, metadata := md }]
        ∧ (r.transition_to s msg md).isOk)
    ∧ (r.current_state ∈ TERMINAL_STATES →
        ∃ e, r.transition_to s msg md = .error e) := by
  refine ⟨⟨?_, ?_⟩, ?_, ?_⟩
  · rintro ⟨r', hr'⟩
    by_contra hmem
    rw [transition_to_not_allowed r s msg md hmem] at hr'
    exact Except.noConfusion hr'
  · intro hmem
    exact ⟨_, transition_to_allowed r s msg md hmem⟩
  · intro r' hr'
    by_cases hmem : s ∈ ALLOWED_STATE_TRANSITIONS r.current_state
    · rw [transition_to_allowed r s msg md hmem] at hr' ⊢
      injection hr' with hr'
      subst hr'
      simp [Except.isOk, Except.toBool]
    · rw [transition_to_not_allowed r s msg md hmem] at hr'
      exact Except.noConfusion hr'
  · intro hterm
    have hmem : s ∉ ALLOWED_STATE_TRANSITIONS r.current_state := by
      revert hterm
      cases r.current_state <;>
        simp [TERMINAL_STATES, ALLOWED_STATE_TRANSITIONS]
    exact ⟨_, transition_to_not_allowed r s msg md hmem⟩

/-- Witness for C2 at a concrete record: from RECEIVED the engine may move
to CONTEXT_COLLECTING, and the move appends exactly that event. -/
theorem transition_to_correct_witness :
    ∃ r', sampleJob.transition_to .context_collecting "go" [] = .ok r'
      ∧ r'.current_state = .context_collecting := by
  obtain ⟨h1, h2, _⟩ :=
    transition_to_correct sampleJob .context_collecting "go" []
  obtain ⟨r', hr'⟩ := h1.mpr (by decide)
  exact ⟨r', hr', (h2 r' hr').1⟩

/-- C6: from a zero-seeded guard the first max_state_transitions
consume_transition() calls all succeed and the next one raises
BudgetExceeded; consume_tool_call() behaves the same against
max_tool_calls; and each successful call on one counter leaves the other
counter (and the config) untouched. -/
theorem budget_guard_ceilings (cfg : JobBudgetConfig) :
    (consumeTransitionN (JobBudgetGuard.init cfg) cfg.max_state_transitions
        = .ok { config := cfg, state_transitions := cfg.max_state_transitions,
                tool_calls := 0 })
    ∧ (∃ e, consumeTransitionN (JobBudgetGuard.init cfg)
          (cfg.max_state_transitions + 1) = .error e)
    ∧ (consumeToolCallN (JobBudgetGuard.init cfg) cfg.max_tool_calls
        = .ok { config := cfg, state_transitions := 0,
                tool_calls := cfg.max_tool_calls })
    ∧ (∃ e, consumeToolCallN (JobBudgetGuard.init cfg)
          (cfg.max_tool_calls + 1) = .error e)
    ∧ (∀ g g' : JobBudgetGuard, g.consume_transition = .ok g' →
        g'.tool_calls = g.tool_calls ∧ g'.config = g.config
        ∧ g'.state_transitions = g.state_transitions + 1)
    ∧ (∀ g g' : JobBudgetGuard, g.consume_tool_call = .ok g' →
        g'.state_transitions = g.state_transitions ∧ g'.config = g.config
        ∧ g'.tool_calls = g.tool_calls + 1) := by
  have hTrans : consumeTransitionN (JobBudgetGuard.init cfg)
      cfg.max_state_transitions = .ok ⟨cfg, cfg.max_state_transitions, 0⟩ := by
    simpa [JobBudgetGuard.init] using
      consumeTransitionN_ok cfg 0 0 cfg.max_state_transitions (by omega)
  have hTool : consumeToolCallN (JobBudgetGuard.init cfg)
      cfg.max_tool_calls = .ok ⟨cfg, 0, cfg.max_tool_calls⟩ := by
    simpa [JobBudgetGuard.init] using
      consumeToolCallN_ok cfg 0 0 cfg.max_tool_calls (by omega)
  refine ⟨hTrans, ?_, hTool, ?_, ?_, ?_⟩
  · refine ⟨"max_state_transitions exceeded: "
        ++ toString (cfg.max_state_transitions + 1) ++ "/"
        ++ toString cfg.max_state_transitions, ?_⟩
    rw [consumeTransitionN, hTrans]
    simp only [Except.bind, JobBudgetGuard.consume_transition, gt_iff_lt]
    rw [if_pos (by omega)]
  · refine ⟨"max_tool_calls exceeded: "
        ++ toString (cfg.max_tool_calls + 1) ++ "/"
        ++ toString cfg.max_tool_calls, ?_⟩
    rw [consumeToolCallN, hTool]
    simp only [Except.bind, JobBudgetGuard.consume_tool_call, gt_iff_lt]
    rw [if_pos (by omega)]
  · intro g g' h
    by_cases hc : g.state_transitions + 1 > g.config.max_state_transitions
    · simp [JobBudgetGuard.consume_transition, hc] at h
    · simp [JobBudgetGuard.consume_transition, hc] at h
      simp [← h]
  · intro g g' h
    by_cases hc : g.tool_calls + 1 > g.config.max_tool_calls
    · simp [JobBudgetGuard.consume_tool_call, hc] at h
    · simp [JobBudgetGuard.consume_tool_call, hc] at h
      simp [← h]

/-- Witness for C6 at the concrete ceiling 2/1. -/
theorem budget_guard_ceilings_witness :
    consumeTransitionN
        (JobBudgetGuard.init { max_state_transitions := 2, max_tool_calls := 1 }) 2
      = .ok { config := { max_state_transitions := 2, max_tool_calls := 1 },
              state_transitions := 2, tool_calls := 0 }
    ∧ ∃ e, consumeTransitionN
        (JobBudgetGuard.init { max_state_transitions := 2, max_tool_calls := 1 }) 3
      = .error e := by
  obtain ⟨h1, h2, _⟩ :=
    budget_guard_ceilings { max_state_transitions := 2, max_tool_calls := 1 }
  exact ⟨h1, h2⟩

/-- C10: every non-terminal state has a FAILED outgoing edge, so the
best-effort FAILED transition in process_job's exception handler can
never fail with an invalid-transition error on a non-terminal job. -/
theorem failed_edge_from_every_nonterminal (s : JobState)
    (h : s ∉ TERMINAL_STATES) :
    JobState.failed ∈ ALLOWED_STATE_TRANSITIONS s
    ∧ ∀ (r : JobRecord) (msg : String) (md : Metadata),
        r.current_state = s →
        ∃ r', r.transition_to .failed msg md = .ok r' := by
  have hmem : JobState.failed ∈ ALLOWED_STATE_TRANSITIONS s := by
    revert h
    cases s <;> simp [TERMINAL_STATES, ALLOWED_STATE_TRANSITIONS]
  refine ⟨hmem, ?_⟩
  intro r msg md hr
  exact ⟨_, transition_to_allowed r .failed msg md (by rw [hr]; exact hmem)⟩

/-- Witness for C10 at the concrete state EXECUTING. -/
theorem failed_edge_from_every_nonterminal_witness :
    JobState.failed ∈ ALLOWED_STATE_TRANSITIONS .executing :=
  (failed_edge_from_every_nonterminal .executing (by decide)).1

/-! ## Budget-guard seeding (C5) -/

/-- C5 counterexample: a resumed job whose stored history evidences one
consumed sandbox tool call (and four real state transitions) gets a guard
whose tool_calls counter is 0 — the tool-call counter, unlike the
transition counter, is reset on resume, refuting the claim that both
counters inherit prior consumption. -/
theorem initial_guard_tool_calls_reset_counterexample :
    toolCallEvidence resumedJob.history = 1
    ∧ JobService.count_state_transitions resumedJob = 4
    ∧ (JobService.initial_guard {} resumedJob).state_transitions = 4
    ∧ (JobService.initial_guard {} resumedJob).tool_calls = 0 :=
  ⟨rfl, rfl, rfl, rfl⟩

/-- C5 amended: the guard process_job constructs seeds only the
state-transition counter from the stored history (the count of real
transitions); the tool-call counter always starts at zero on (re)entry to
process_job. -/
theorem initial_guard_seeding (config : JobBudgetConfig) (job : JobRecord) :
    JobService.initial_guard config job
      = { config := config,
          state_transitions := JobService.count_state_transitions job,
          tool_calls := 0 } :=
  rfl

/-! ## Auto-fix loop (C7) -/

lemma auto_fix_go_exit (exec : Nat → JobRecord → PlanV1 → ReportV1)
    (plan : PlanV1) (maxR : Nat) (job : JobRecord) (rep : ReportV1) (i : Nat)
    (h : ¬ (rep.failures ≠ [] ∧ i < maxR)) :
    JobRunner.auto_fix_go exec plan maxR job rep i = .ok (job, rep, i) := by
  rw [JobRunner.auto_fix_go, dif_neg h]

lemma auto_fix_go_step (exec : Nat → JobRecord → PlanV1 → ReportV1)
    (plan : PlanV1) (maxR : Nat) (job : JobRecord) (rep : ReportV1) (i : Nat)
    (hfail : rep.failures ≠ []) (hlt : i < maxR)
    (hstate : job.current_state = .executing) :
    ∃ j2 : JobRecord,
      JobRunner.auto_fix_go exec plan maxR job rep i
        = JobRunner.auto_fix_go exec plan maxR j2 (exec (i + 1) j2 plan) (i + 1)
      ∧ j2.current_state = .executing
      ∧ countAutoFix j2.history = countAutoFix job.history + 1 := by
  have hmem2 : JobState.executing ∈ ALLOWED_STATE_TRANSITIONS .auto_fixing := by
    decide
  rw [JobRunner.auto_fix_go, dif_pos ⟨hfail, hlt⟩]
  rw [transition_to_allowed _ _ _ _ (by rw [hstate]; decide)]
  dsimp only
  rw [transition_to_allowed _ _ _ _ hmem2]
  dsimp only
  refine ⟨_, rfl, rfl, ?_⟩
  simp [countAutoFix, List.countP_append, List.countP_cons]

lemma auto_fix_go_run (exec : Nat → JobRecord → PlanV1 → ReportV1)
    (plan : PlanV1) (maxR : Nat) :
    ∀ (d i : Nat) (job : JobRecord) (rep : ReportV1),
    maxR - i = d → i ≤ maxR → job.current_state = .executing →
    (∀ k (jk : JobRecord), i < k → k < maxR → (exec k jk plan).failures ≠ []) →
    (i < maxR → rep.failures ≠ []) →
    ∃ (j' : JobRecord) (rep' : ReportV1),
      JobRunner.auto_fix_go exec plan maxR job rep i = .ok (j', rep', maxR)
      ∧ j'.current_state = .executing
      ∧ countAutoFix j'.history = countAutoFix job.history + (maxR - i)
      ∧ ((i = maxR ∧ rep' = rep ∧ j' = job)
          ∨ (i < maxR ∧ rep' = exec maxR j' plan)) := by
  intro d
  induction d with
  | zero =>
    intro i job rep hd hle hstate _ _
    have hi : i = maxR := by omega
    refine ⟨job, rep, ?_, hstate, by omega, Or.inl ⟨hi, rfl, rfl⟩⟩
    rw [auto_fix_go_exit exec plan maxR job rep i
      (by rintro ⟨-, h2⟩; omega), hi]
  | succ d ih =>
    intro i job rep hd hle hstate hmid hrep
    have hlt : i < maxR := by omega
    obtain ⟨j2, hgo, hj2state, hj2count⟩ :=
      auto_fix_go_step exec plan maxR job rep i (hrep hlt) hlt hstate
    have hmid2 : ∀ k (jk : JobRecord), i + 1 < k → k < maxR →
        (exec k jk plan).failures ≠ [] :=
      fun k jk hk hkN => hmid k jk (by omega) hkN
    have hrep2 : i + 1 < maxR → (exec (i + 1) j2 plan).failures ≠ [] :=
      fun hlt2 => hmid (i + 1) j2 (by omega) hlt2
    obtain ⟨j', rep', hgo2, hstate', hcount', hdisj⟩ :=
      ih (i + 1) j2 (exec (i + 1) j2 plan) (by omega) (by omega) hj2state
        hmid2 hrep2
    refine ⟨j', rep', by rw [hgo, hgo2], hstate', by omega, Or.inr ⟨hlt, ?_⟩⟩
    rcases hdisj with ⟨hi, hrep', hj'⟩ | ⟨_, hrep'⟩
    · subst hj'
      rw [hrep', ← hi]
    · exact hrep'

/-- C7: for the auto-fix loop with N = auto_fix_max_rounds on an
EXECUTING job: (a) an attempt function failing on attempts 1..N-1 and
clean on attempt N makes the loop return a failure-free report after
exactly N attempts with exactly N-1 AUTO_FIXING transitions added to the
history; (b) an always-failing attempt function makes it return the final
failing report after exactly N attempts, never more, again with N-1
AUTO_FIXING transitions. -/
theorem auto_fix_loop_rounds (job : JobRecord) (plan : PlanV1)
    (exec : Nat → JobRecord → PlanV1 → ReportV1) (N : Nat)
    (hN : job.retry_policy.auto_fix_max_rounds = N)
    (h1 : 1 ≤ N)
    (hstate : job.current_state = .executing) :
    ((∀ k (jk : JobRecord), 1 ≤ k → k < N → (exec k jk plan).failures ≠ []) →
      (∀ jk : JobRecord, (exec N jk plan).failures = []) →
      ∃ (j' : JobRecord) (rep' : ReportV1),
        JobRunner.execute_with_auto_fix job plan exec = .ok (j', rep', N)
        ∧ rep'.failures = []
        ∧ countAutoFix j'.history = countAutoFix job.history + (N - 1))
    ∧ ((∀ k (jk : JobRecord), (exec k jk plan).failures ≠ []) →
      ∃ (j' : JobRecord) (rep' : ReportV1),
        JobRunner.execute_with_auto_fix job plan exec = .ok (j', rep', N)
        ∧ rep'.failures ≠ []
        ∧ countAutoFix j'.history = countAutoFix job.history + (N - 1)) := by
  constructor
  · intro hmid hend
    have hrep : 1 < N → (exec 1 job plan).failures ≠ [] :=
      fun hlt => hmid 1 job (by omega) hlt
    obtain ⟨j', rep', hgo, _, hcount, hdisj⟩ :=
      auto_fix_go_run exec plan N (N - 1) 1 job (exec 1 job plan) (by omega)
        (by omega) hstate (fun k jk hk hkN => hmid k jk (by omega) hkN) hrep
    refine ⟨j', rep', ?_, ?_, by omega⟩
    · rw [JobRunner.execute_with_auto_fix, hN, hgo]
    · rcases hdisj with ⟨hi, hrep', _⟩ | ⟨_, hrep'⟩
      · rw [hrep']
        have := hend job
        rw [← hi] at this
        exact this
      · rw [hrep']
        exact hend j'
  · intro hall
    obtain ⟨j', rep', hgo, _, hcount, hdisj⟩ :=
      auto_fix_go_run exec plan N (N - 1) 1 job (exec 1 job plan) (by omega)
        (by omega) hstate (fun k jk _ _ => hall k jk)
        (fun _ => hall 1 job)
    refine ⟨j', rep', ?_, ?_, by omega⟩
    · rw [JobRunner.execute_with_auto_fix, hN, hgo]
    · rcases hdisj with ⟨_, hrep', _⟩ | ⟨_, hrep'⟩
      · rw [hrep']
        exact hall 1 job
      · rw [hrep']
        exact hall N j'

/-! ## The current_state/last-event invariant (C9) -/

lemma stateMatchesLast_of_concat {r : JobRecord} {h : List JobEvent}
    {e : JobEvent} (hh : r.history = h ++ [e])
    (hs : r.current_state = e.state) : stateMatchesLast r := by
  intro e' he'
  rw [hh, List.getLast?_concat] at he'
  injection he' with he'
  rw [← he']
  exact hs

lemma transition_ok_matches {r r' : JobRecord} {s : JobState} {msg : String}
    {md : Metadata} (hok : r.transition_to s msg md = .ok r') :
    stateMatchesLast r' := by
  have hmem : s ∈ ALLOWED_STATE_TRANSITIONS r.current_state := by
    by_contra hmem
    rw [transition_to_not_allowed r s msg md hmem] at hok
    exact Except.noConfusion hok
  rw [transition_to_allowed r s msg md hmem] at hok
  injection hok with hok
  exact stateMatchesLast_of_concat (by rw [← hok]) (by rw [← hok])

lemma storeAppend_job (env : PipelineEnv) (st : PipelineState) (jid : String)
    (e : JobEvent) : (storeAppend env st jid e).1.job = st.job := by
  cases h : env.append_outcome st.world.append_calls <;> simp [storeAppend, h]

lemma auditLog_job (st : PipelineState) (a b c : String) :
    (auditLog st a b c).job = st.job := rfl

lemma advance_matches (env : PipelineEnv) (st : PipelineState) (s : JobState)
    (msg : String) (md : Metadata) (b : Bool)
    (hst : stateMatchesLast st.job) :
    stateMatchesLast ((JobService.advance env st s msg md b).1).job := by
  unfold JobService.advance
  dsimp only
  split
  · next st1 e heq =>
    have hj : st1.job = st.job := by
      split at heq
      · split at heq
        · injection heq with h1 h2
          rw [← h1]
        · injection heq with h1 h2
          exact Except.noConfusion h2
      · injection heq with h1 h2
        exact Except.noConfusion h2
    simpa [hj] using hst
  · next st1 u heq =>
    have hj : st1.job = st.job := by
      split at heq
      · split at heq
        · injection heq with h1 h2
          exact Except.noConfusion h2
        · injection heq with h1 h2
          rw [← h1]
      · injection heq with h1 h2
        rw [← h1]
    split
    · next e heq2 =>
      simpa [hj] using hst
    · next job' heq2 =>
      split
      · next st3 e heq3 =>
        have hsa := congrArg (fun p => p.1.job) heq3
        dsimp only at hsa
        rw [storeAppend_job] at hsa
        rw [← hsa]
        exact transition_ok_matches heq2
      · next st3 u2 heq3 =>
        have hsa := congrArg (fun p => p.1.job) heq3
        dsimp only at hsa
        rw [storeAppend_job] at hsa
        rw [auditLog_job, ← hsa]
        exact transition_ok_matches heq2

lemma record_workflow_step_matches (env : PipelineEnv) (st : PipelineState)
    (step phase msg : String) (details : Metadata) :
    stateMatchesLast
      ((JobService.record_workflow_step env st step phase msg details).1).job := by
  unfold JobService.record_workflow_step
  dsimp only
  split
  · next st2 e heq =>
    have hsa := congrArg (fun p => p.1.job) heq
    dsimp only at hsa
    rw [storeAppend_job] at hsa
    rw [← hsa]
    exact stateMatchesLast_of_concat rfl rfl
  · next st2 u heq =>
    have hsa := congrArg (fun p => p.1.job) heq
    dsimp only at hsa
    rw [storeAppend_job] at hsa
    rw [auditLog_job, ← hsa]
    exact stateMatchesLast_of_concat rfl rfl

lemma record_agent_decisions_matches (env : PipelineEnv) :
    ∀ (tasks : List CrewTask) (st : PipelineState),
    stateMatchesLast st.job →
    stateMatchesLast
      ((JobService.record_agent_decisions env st tasks).1).job := by
  intro tasks
  induction tasks with
  | nil =>
    intro st hst
    simpa [JobService.record_agent_decisions] using hst
  | cons task rest ih =>
    intro st hst
    unfold JobService.record_agent_decisions
    dsimp only
    split
    · next st2 e heq =>
      have hsa := congrArg (fun p => p.1.job) heq
      dsimp only at hsa
      rw [storeAppend_job] at hsa
      rw [← hsa]
      exact stateMatchesLast_of_concat rfl rfl
    · next st2 u heq =>
      have hsa := congrArg (fun p => p.1.job) heq
      dsimp only at hsa
      rw [storeAppend_job] at hsa
      apply ih
      rw [auditLog_job, ← hsa]
      exact stateMatchesLast_of_concat rfl rfl

/-- C9: current_state always equals the state of the last history entry:
a successful transition_to re-establishes it, and the pipeline's
_advance, _record_workflow_step (which appends an event carrying the
unchanged current state) and _record_agent_decisions all preserve it,
whatever the fault behaviour of the store. -/
theorem current_state_equals_last_event (env : PipelineEnv) :
    (∀ (r r' : JobRecord) (s : JobState) (msg : String) (md : Metadata),
        r.transition_to s msg md = .ok r' → stateMatchesLast r')
    ∧ (∀ (st : PipelineState) (s : JobState) (msg : String) (md : Metadata)
        (b : Bool), stateMatchesLast st.job →
        stateMatchesLast ((JobService.advance env st s msg md b).1).job)
    ∧ (∀ (st : PipelineState) (step phase msg : String) (details : Metadata),
        stateMatchesLast
          ((JobService.record_workflow_step env st step phase msg
            details).1).job)
    ∧ (∀ (tasks : List CrewTask) (st : PipelineState),
        stateMatchesLast st.job →
        stateMatchesLast
          ((JobService.record_agent_decisions env st tasks).1).job) :=
  ⟨fun _ _ _ _ _ hok => transition_ok_matches hok,
   fun st s msg md b hst => advance_matches env st s msg md b hst,
   fun st step phase msg details =>
     record_workflow_step_matches env st step phase msg details,
   fun tasks st hst => record_agent_decisions_matches env tasks st hst⟩

/-- Witness for C9: the invariant after a concrete legal transition. -/
theorem current_state_equals_last_event_witness :
    ∃ r', sampleJob.transition_to .context_collecting
        "Collecting repository context" [] = .ok r' ∧ stateMatchesLast r' := by
  have hok := transition_to_allowed sampleJob .context_collecting
    "Collecting repository context" [] (by decide)
  exact ⟨_, hok,
    (current_state_equals_last_event sampleEnv).1 _ _ _ _ _ hok⟩

/-! ## Event-row cursoring (C8) -/

lemma list_event_rows_eq_filter (st : StoreState) (hwf : st.WF)
    (j : String) (K : Nat) :
    st.list_event_rows j K
      = st.rows.filter (fun r => r.job_id == j && K < r.id) := by
  have hp : (st.rows.filter (fun r => r.job_id == j && K < r.id)).Pairwise
      (fun a b : EventRow => a.id < b.id) := hwf.1.filter _
  exact List.Sorted.insertionSort_eq (hp.imp fun h => le_of_lt h)

lemma filter_cursor_split (j : String) (K K' : Nat) (hKK' : K ≤ K')
    (l : List EventRow) (hp : l.Pairwise (fun a b => a.id < b.id)) :
    l.filter (fun r => r.job_id == j && K < r.id)
      = (l.filter (fun r => r.job_id == j && K < r.id)).filter
          (fun r => r.id ≤ K')
        ++ l.filter (fun r => r.job_id == j && K' < r.id) := by
  set pK : EventRow → Bool := fun r => r.job_id == j && decide (K < r.id)
    with hpK
  set pK' : EventRow → Bool := fun r => r.job_id == j && decide (K' < r.id)
    with hpK'
  set q : EventRow → Bool := fun r => decide (r.id ≤ K') with hq
  induction l with
  | nil => simp
  | cons r t ih =>
    have hpt := hp.of_cons
    have hrt : ∀ a ∈ t, r.id < a.id := fun a ha =>
      List.rel_of_pairwise_cons hp ha
    by_cases hj : r.job_id = j
    · by_cases hK : K < r.id
      · by_cases hK' : r.id ≤ K'
        · have h1 : pK r = true := by simp [hpK, hj, hK]
          have h2 : q r = true := by simp [hq, hK']
          have h3 : ¬ pK' r = true := by
            simp [hpK', hj]
            omega
          rw [List.filter_cons_of_pos h1, List.filter_cons_of_pos h2,
              List.filter_cons_of_neg h3, List.cons_append]
          exact congrArg (r :: ·) (ih hpt)
        · have h1 : pK r = true := by simp [hpK, hj, hK]
          have h2 : ¬ q r = true := by
            simp [hq]
            omega
          have h3 : pK' r = true := by
            simp [hpK', hj]
            omega
          rw [List.filter_cons_of_pos h1, List.filter_cons_of_neg h2,
              List.filter_cons_of_pos h3]
          have hempty : (t.filter pK).filter q = [] := by
            rw [List.filter_eq_nil_iff]
            intro a ha
            have hat : a ∈ t := (List.mem_filter.mp ha).1
            have := hrt a hat
            simp [hq]
            omega
          have hsame : t.filter pK = t.filter pK' :=
            List.filter_congr (fun a ha => by
              have hra := hrt a ha
              have hKa : K < a.id := by omega
              have hK'a : K' < a.id := by omega
              simp [hpK, hpK', hKa, hK'a])
          rw [hempty, hsame]
          simp
      · have h1 : ¬ pK r = true := by
          simp [hpK, hj]
          omega
        have h2 : ¬ pK' r = true := by
          simp [hpK', hj]
          omega
        rw [List.filter_cons_of_neg h1, List.filter_cons_of_neg h2]
        exact ih hpt
    · have h1 : ¬ pK r = true := by simp [hpK, hj]
      have h2 : ¬ pK' r = true := by simp [hpK', hj]
      rw [List.filter_cons_of_neg h1, List.filter_cons_of_neg h2]
      exact ih hpt

lemma append_event_WF (st : StoreState) (hwf : st.WF) (j' : String)
    (e : JobEvent) : (st.append_event j' e).WF := by
  constructor
  · rw [StoreState.append_event]
    apply List.pairwise_append.mpr
    refine ⟨hwf.1, List.pairwise_singleton _ _, ?_⟩
    intro a ha b hb
    have hb' : b = ⟨st.nextId, j', e.state, e.message, e.metadata⟩ := by
      simpa using hb
    subst hb'
    exact hwf.2 a ha
  · intro r hr
    rw [StoreState.append_event] at hr
    rcases List.mem_append.mp hr with h | h
    · have := hwf.2 r h
      simp only [StoreState.append_event]
      omega
    · have hr' : r = ⟨st.nextId, j', e.state, e.message, e.metadata⟩ := by
        simpa using h
      subst hr'
      simp [StoreState.append_event]

/-- C8: for a well-formed event table, list_event_rows(job_id, after_id=K)
returns exactly the stored rows of that job with id strictly above K, in
strictly ascending id order (hence duplicate-free); a later poll at
cursor K' splits the earlier poll into the already-seen prefix and the
new rows (no gaps, no duplicates across polls); and appending an event
preserves well-formedness while extending the poll by exactly the new
row when it is visible from the cursor. -/
theorem list_event_rows_cursor_correct (st : StoreState) (hwf : st.WF)
    (j : String) (K : Nat) :
    (∀ r : EventRow, r ∈ st.list_event_rows j K ↔
        (r ∈ st.rows ∧ r.job_id = j ∧ K < r.id))
    ∧ (st.list_event_rows j K).Pairwise (fun a b => a.id < b.id)
    ∧ (∀ K', K ≤ K' →
        st.list_event_rows j K
          = (st.list_event_rows j K).filter (fun r => r.id ≤ K')
            ++ st.list_event_rows j K')
    ∧ (∀ (j' : String) (e : JobEvent),
        (st.append_event j' e).WF
        ∧ (st.append_event j' e).list_event_rows j K
          = st.list_event_rows j K
            ++ (if j' = j ∧ K < st.nextId
                then [⟨st.nextId, j', e.state, e.message, e.metadata⟩]
                else [])) := by
  refine ⟨?_, ?_, ?_, ?_⟩
  · intro r
    rw [list_event_rows_eq_filter st hwf]
    simp [List.mem_filter]
  · rw [list_event_rows_eq_filter st hwf]
    exact hwf.1.filter _
  · intro K' hKK'
    rw [list_event_rows_eq_filter st hwf, list_event_rows_eq_filter st hwf]
    exact filter_cursor_split j K K' hKK' st.rows hwf.1
  · intro j' e
    have hwf' := append_event_WF st hwf j' e
    refine ⟨hwf', ?_⟩
    rw [list_event_rows_eq_filter _ hwf', list_event_rows_eq_filter st hwf]
    simp only [StoreState.append_event]
    rw [List.filter_append]
    congr 1
    by_cases hc : j' = j ∧ K < st.nextId
    · rw [if_pos hc]
      simp [hc.1, hc.2]
    · rw [if_neg hc]
      rw [Classical.not_and_iff_or_not_not] at hc
      rcases hc with h | h
      · simp [h]
      · simp [Nat.not_lt.mp h, h]

/-- Witness for C8 at a concrete three-row table: the poll at cursor 1
for job-1 sees exactly the row with id 2. -/
theorem list_event_rows_cursor_correct_witness :
    (⟨2, "job-1", .context_collecting, "Collecting repository context", []⟩
        : EventRow) ∈ sampleStore.list_event_rows "job-1" 1 := by
  have hwf : sampleStore.WF := by
    constructor
    · norm_num [sampleStore, List.pairwise_cons]
    · intro r hr
      simp only [sampleStore, List.mem_cons, List.not_mem_nil, or_false] at hr
      rcases hr with rfl | rfl | rfl <;> norm_num [sampleStore]
  have h := (list_event_rows_cursor_correct sampleStore hwf "job-1" 1).1
  exact (h _).mpr
    ⟨List.mem_cons_of_mem _ (List.mem_cons_self _ _), rfl, by decide⟩

/-! ## The process_job pipeline (C1, C3) -/

lemma failed_mem_allowed (s : JobState) (h : s ∉ TERMINAL_STATES) :
    JobState.failed ∈ ALLOWED_STATE_TRANSITIONS s := by
  revert h
  cases s <;> simp [TERMINAL_STATES, ALLOWED_STATE_TRANSITIONS]

lemma storeAppend_escalations (env : PipelineEnv) (st : PipelineState)
    (jid : String) (e : JobEvent) :
    (storeAppend env st jid e).1.world.escalations
      = st.world.escalations := by
  cases h : env.append_outcome st.world.append_calls <;>
    simp [storeAppend, h]

lemma auditLog_world_escalations (st : PipelineState) (a b c : String) :
    (auditLog st a b c).world.escalations = st.world.escalations := rfl

lemma advance_escalations (env : PipelineEnv) (st : PipelineState)
    (s : JobState) (msg : String) (md : Metadata) (b : Bool) :
    ((JobService.advance env st s msg md b).1).world.escalations
      = st.world.escalations := by
  unfold JobService.advance
  dsimp only
  split
  · next st1 e heq =>
    have hj : st1.world = st.world := by
      split at heq
      · split at heq
        · injection heq with h1 h2
          rw [← h1]
        · injection heq with h1 h2
          exact Except.noConfusion h2
      · injection heq with h1 h2
        exact Except.noConfusion h2
    dsimp only
    rw [hj]
  · next st1 u heq =>
    have hj : st1.world = st.world := by
      split at heq
      · split at heq
        · injection heq with h1 h2
          exact Except.noConfusion h2
        · injection heq with h1 h2
          rw [← h1]
      · injection heq with h1 h2
        rw [← h1]
    split
    · next e heq2 =>
      dsimp only
      rw [hj]
    · next job' heq2 =>
      split
      · next st3 e heq3 =>
        have hsa := congrArg (fun p => p.1.world.escalations) heq3
        dsimp only at hsa
        rw [storeAppend_escalations] at hsa
        dsimp only
        rw [← hsa]
        dsimp only
        rw [hj]
      · next st3 u2 heq3 =>
        have hsa := congrArg (fun p => p.1.world.escalations) heq3
        dsimp only at hsa
        rw [storeAppend_escalations] at hsa
        dsimp only
        rw [auditLog_world_escalations, ← hsa]
        dsimp only
        rw [hj]

lemma record_workflow_step_escalations (env : PipelineEnv)
    (st : PipelineState) (step phase msg : String) (details : Metadata) :
    ((JobService.record_workflow_step env st step phase msg
        details).1).world.escalations
      = st.world.escalations := by
  unfold JobService.record_workflow_step
  dsimp only
  split
  · next st2 e heq =>
    have hsa := congrArg (fun p => p.1.world.escalations) heq
    dsimp only at hsa
    rw [storeAppend_escalations] at hsa
    dsimp only
    rw [← hsa]
  · next st2 u heq =>
    have hsa := congrArg (fun p => p.1.world.escalations) heq
    dsimp only at hsa
    rw [storeAppend_escalations] at hsa
    dsimp only
    rw [auditLog_world_escalations, ← hsa]

lemma record_agent_decisions_escalations (env : PipelineEnv) :
    ∀ (tasks : List CrewTask) (st : PipelineState),
    ((JobService.record_agent_decisions env st tasks).1).world.escalations
      = st.world.escalations := by
  intro tasks
  induction tasks with
  | nil =>
    intro st
    simp [JobService.record_agent_decisions]
  | cons task rest ih =>
    intro st
    unfold JobService.record_agent_decisions
    dsimp only
    split
    · next st2 e heq =>
      have hsa := congrArg (fun p => p.1.world.escalations) heq
      dsimp only at hsa
      rw [storeAppend_escalations] at hsa
      dsimp only
      rw [← hsa]
    · next st2 u heq =>
      have hsa := congrArg (fun p => p.1.world.escalations) heq
      dsimp only at hsa
      rw [storeAppend_escalations] at hsa
      rw [ih, auditLog_world_escalations, ← hsa]

lemma run_build_in_sandbox_escalations (env : PipelineEnv)
    (st : PipelineState) :
    ((JobService.run_build_in_sandbox env st).1).world.escalations
      = st.world.escalations := by
  unfold JobService.run_build_in_sandbox
  dsimp only
  split
  · rfl
  · next g heq =>
    split
    · rfl
    · next result heq2 =>
      rw [record_workflow_step_escalations]
      rfl

lemma pstep_escalations {esc : List EscalationRecord}
    (x : PipelineState × Except String Unit)
    (f : PipelineState → PipelineState × Except String Unit)
    (hx : x.1.world.escalations = esc)
    (hf : ∀ st : PipelineState, st.world.escalations = esc →
      ((f st).1).world.escalations = esc) :
    ((pstep x f).1).world.escalations = esc := by
  rcases x with ⟨st, r⟩
  cases r with
  | ok u => exact hf st hx
  | error e => exact hx

lemma pipeline_try_escalations (env : PipelineEnv) (st0 : PipelineState) :
    ((JobService.pipeline_try env st0).1).world.escalations
      = st0.world.escalations := by
  unfold JobService.pipeline_try
  refine pstep_escalations _ _ (advance_escalations env st0 _ _ _ _) ?_
  intro st1 h1
  refine pstep_escalations _ _
    ((record_workflow_step_escalations env st1 _ _ _ _).trans h1) ?_
  intro st2 h2
  cases ho : env.orchestrator_run st2.job with
  | error e =>
    exact h2
  | ok crew =>
    dsimp only
    refine pstep_escalations _ _
      ((record_workflow_step_escalations env st2 _ _ _ _).trans h2) ?_
    intro st3 h3
    refine pstep_escalations _ _
      ((record_agent_decisions_escalations env _ st3).trans h3) ?_
    intro st4 h4
    refine pstep_escalations _ _
      ((record_workflow_step_escalations env st4 _ _ _ _).trans h4) ?_
    intro st5 h5
    refine pstep_escalations _ _
      ((advance_escalations env st5 _ _ _ _).trans h5) ?_
    intro st6 h6
    refine pstep_escalations _ _
      ((record_workflow_step_escalations env st6 _ _ _ _).trans h6) ?_
    intro st7 h7
    refine pstep_escalations _ _
      ((auditLog_world_escalations st7 _ _ _).trans h7) ?_
    intro st8 h8
    refine pstep_escalations _ _
      ((advance_escalations env st8 _ _ _ _).trans h8) ?_
    intro st9 h9
    refine pstep_escalations _ _
      ((advance_escalations env st9 _ _ _ _).trans h9) ?_
    intro st10 h10
    refine pstep_escalations _ _
      ((run_build_in_sandbox_escalations env st10).trans h10) ?_
    intro st11 h11
    refine pstep_escalations _ _
      ((advance_escalations env st11 _ _ _ _).trans h11) ?_
    intro st12 h12
    refine pstep_escalations _ _
      ((advance_escalations env st12 _ _ _ _).trans h12) ?_
    intro st13 h13
    exact (record_workflow_step_escalations env st13 _ _ _ _).trans h13

lemma pipeline_handler_spec (env : PipelineEnv) (st : PipelineState)
    (exc : String)
    (hesc : env.escalation_write st.world.escalation_writes = none) :
    ((JobService.pipeline_handler env st exc).2 = .ok ())
    ∧ ((JobService.pipeline_handler env st exc).1).world.escalations
        = st.world.escalations
          ++ [⟨env.fresh_escalation_id, st.job.job_id, "high",
               "Job processing failed",
               [("error", .str exc),
                ("state", .str st.job.current_state.value)]⟩]
    ∧ (st.job.current_state ∉ TERMINAL_STATES →
        env.append_outcome (st.world.append_calls + 1) = none →
        ((((JobService.pipeline_handler env st exc).1).world.store.rows.getLast?).map
            (fun r => (r.job_id, r.state))
          = some (st.job.job_id, JobState.failed))
        ∧ ((JobService.pipeline_handler env st exc).1).job.current_state
            = JobState.failed) := by
  by_cases hT : st.job.current_state ∈ TERMINAL_STATES
  · cases han : env.append_outcome st.world.append_calls <;>
      exact ⟨by simp [JobService.pipeline_handler,
          JobService.record_workflow_step, storeAppend, auditLog,
          escalationCreate, han, hesc, hT],
        by simp [JobService.pipeline_handler,
          JobService.record_workflow_step, storeAppend, auditLog,
          escalationCreate, han, hesc, hT],
        fun hT' _ => absurd hT hT'⟩
  · have hmem := failed_mem_allowed st.job.current_state hT
    cases han : env.append_outcome st.world.append_calls <;>
      cases hadd : env.append_outcome (st.world.append_calls + 1)
    all_goals refine ⟨?_, ?_, ?_⟩
    all_goals
      first
        | (intro hT2 hadd2
           rw [hadd] at hadd2
           exact Option.noConfusion hadd2)
        | (intro hT2 hadd2
           simp [JobService.pipeline_handler, JobService.record_workflow_step,
            JobService.advance, JobRecord.transition_to, storeAppend,
            auditLog, escalationCreate, StoreState.append_event, han, hadd,
            hesc, hT, hmem, List.getLast?_concat]
           done)
        | (simp [JobService.pipeline_handler, JobService.record_workflow_step,
            JobService.advance, JobRecord.transition_to, storeAppend,
            auditLog, escalationCreate, StoreState.append_event, han, hadd,
            hesc, hT, hmem, List.getLast?_concat]
           done)

/-- C1 (amended): when the pipeline body raises on a non-terminal job,
the handler runs: process_job returns normally provided the escalation
write succeeds, exactly one escalation (with the failing state and error
text) is appended to the log, and — when the job is still non-terminal —
a best-effort FAILED transition is recorded (here evidenced when its
store write succeeds); the escalation write itself is the one unprotected
step, settled separately by the counterexample. -/
theorem process_job_exception_containment (env : PipelineEnv)
    (w : WorldState) (job_id : String) (job : JobRecord) (exc : String)
    (hjob : w.store.get_job job_id = some job)
    (hterm : job.current_state ∉ TERMINAL_STATES)
    (hfail : (JobService.pipeline_try env
        (JobService.entry_state env w job)).2 = .error exc)
    (hesc : env.escalation_write
        ((JobService.pipeline_try env
          (JobService.entry_state env w job)).1).world.escalation_writes
      = none) :
    ((JobService.process_job env w job_id).2 = .ok ())
    ∧ ((JobService.process_job env w job_id).1.escalations
        = w.escalations
          ++ [⟨env.fresh_escalation_id,
               ((JobService.pipeline_try env
                 (JobService.entry_state env w job)).1).job.job_id,
               "high", "Job processing failed",
               [("error", .str exc),
                ("state", .str ((JobService.pipeline_try env
                  (JobService.entry_state env w job)).1).job.current_state.value)]⟩])
    ∧ (((JobService.pipeline_try env
          (JobService.entry_state env w job)).1).job.current_state
            ∉ TERMINAL_STATES →
        env.append_outcome
            (((JobService.pipeline_try env
              (JobService.entry_state env w job)).1).world.append_calls + 1)
          = none →
        ((JobService.process_job env w job_id).1.store.rows.getLast?).map
            (fun r => (r.job_id, r.state))
          = some (((JobService.pipeline_try env
              (JobService.entry_state env w job)).1).job.job_id,
            JobState.failed)) := by
  have hpair : JobService.pipeline_try env (JobService.entry_state env w job)
      = ((JobService.pipeline_try env (JobService.entry_state env w job)).1,
         Except.error exc) := by
    rw [Prod.ext_iff]
    exact ⟨rfl, hfail⟩
  have hrun : JobService.process_job env w job_id
      = ((JobService.pipeline_handler env
            (JobService.pipeline_try env
              (JobService.entry_state env w job)).1 exc).1.world,
         (JobService.pipeline_handler env
            (JobService.pipeline_try env
              (JobService.entry_state env w job)).1 exc).2) := by
    simp only [JobService.process_job, hjob]
    rw [if_neg hterm, hpair]
  have hspec := pipeline_handler_spec env
    (JobService.pipeline_try env (JobService.entry_state env w job)).1 exc
    hesc
  have hpres := pipeline_try_escalations env (JobService.entry_state env w job)
  refine ⟨?_, ?_, ?_⟩
  · rw [hrun]
    exact hspec.1
  · rw [hrun]
    show (JobService.pipeline_handler env _ exc).1.world.escalations = _
    rw [hspec.2.1, hpres]
    rfl
  · intro h1 h2
    rw [hrun]
    exact (hspec.2.2 h1 h2).1

/-- C1 counterexample: with a failing orchestrator and a failing
escalation-log write (e.g. a full disk), process_job raises to its
caller, records no escalation and no FAILED transition — the escalation
write's failure propagates out of process_job, refuting the claim. -/
theorem process_job_escalation_write_escapes :
    ((JobService.process_job escalationFailEnv sampleWorld "job-1").2
      = .error "disk full: escalations.log")
    ∧ ((JobService.process_job escalationFailEnv sampleWorld "job-1").1.escalations
      = [])
    ∧ ((JobService.process_job escalationFailEnv sampleWorld "job-1").1.store.jobs.map
        (fun j => j.current_state) = [.context_collecting]) :=
  ⟨rfl, rfl, rfl⟩

/-- Witness for C1 at a concrete failing orchestrator with a healthy
escalation log: the exception is contained and exactly one escalation is
recorded, with the job routed to FAILED. -/
theorem process_job_exception_containment_witness :
    ((JobService.process_job orchFailEnv sampleWorld "job-1").2 = .ok ())
    ∧ ((JobService.process_job orchFailEnv sampleWorld "job-1").1.escalations.length
      = 1)
    ∧ (((JobService.process_job orchFailEnv sampleWorld "job-1").1.store.rows.getLast?).map
        (fun r => (r.job_id, r.state)) = some ("job-1", JobState.failed)) := by
  have h := process_job_exception_containment orchFailEnv sampleWorld "job-1"
    fetchedJob "CrewAI orchestration failed" rfl (by decide) rfl rfl
  refine ⟨h.1, ?_, ?_⟩
  · rw [h.2.1]
    rfl
  · have h3 := h.2.2 (by decide) rfl
    rw [h3]
    rfl

/-- C3 counterexample: a failing sandbox attempt (auto_fix_max_rounds is
5) triggers no AUTO_FIXING → EXECUTING retry: exactly one sandbox
attempt happens, no AUTO_FIXING event is ever recorded, and the job goes
to FAILED through the exception handler — process_job has no auto-fix
loop. -/
theorem process_job_no_auto_fix :
    ((JobService.process_job sandboxFailEnv sampleWorld "job-1").2 = .ok ())
    ∧ ((JobService.process_job sandboxFailEnv sampleWorld "job-1").1.sandbox_calls
      = 1)
    ∧ ((JobService.process_job sandboxFailEnv sampleWorld "job-1").1.store.rows.countP
        (fun r => decide (r.state = .auto_fixing)) = 0)
    ∧ ((JobService.process_job sandboxFailEnv sampleWorld "job-1").1.store.jobs.map
        (fun j => j.current_state) = [.failed])
    ∧ fetchedJob.retry_policy.auto_fix_max_rounds = 5 :=
  ⟨rfl, rfl, rfl, rfl, rfl⟩

/-- C3 (amended): on a fault-free run, process_job drives, in strict
order, exactly the budget-guarded transitions CONTEXT_COLLECTING →
PLANNING (after the orchestrator consultation) → AWAITING_PLAN_APPROVAL →
EXECUTING → one sandbox attempt → REPORTING → COMPLETED; no AUTO_FIXING
transition exists in process_job (the auto-fix retry loop lives only in
flow.py's JobRunner, proved for C7), and a failing attempt instead raises
into the escalation/FAILED handler. -/
theorem process_job_strict_order :
    ((JobService.process_job sampleEnv sampleWorld "job-1").2 = .ok ())
    ∧ (((JobService.process_job sampleEnv sampleWorld "job-1").1.store.rows.filter
          (fun r => isStateTransition r.metadata_json)).map (fun r => r.state)
        = [.context_collecting, .planning, .awaiting_plan_approval,
           .executing, .reporting, .completed])
    ∧ ((JobService.process_job sampleEnv sampleWorld "job-1").1.sandbox_calls = 1)
    ∧ ((JobService.process_job sampleEnv sampleWorld "job-1").1.store.rows.countP
        (fun r => decide (r.state = .auto_fixing)) = 0)
    ∧ ((JobService.process_job sampleEnv sampleWorld "job-1").1.store.jobs.map
        (fun j => j.current_state) = [.completed])
    ∧ ((JobService.process_job sampleEnv sampleWorld "job-1").1.escalations = []) :=
  ⟨rfl, rfl, rfl, rfl, rfl, rfl⟩

/-! ## Idempotent submission (C4) -/

/-- C4: starting from an empty store, (i) a keyed submission creates a
job whose id is the fresh uuid, not reused; (ii) resubmitting the same
payload under the same key returns the same job_id with reused = true;
(iii) resubmitting a different payload under the same key raises the
idempotency conflict and leaves the world untouched (creates nothing);
(iv)-(v) two unkeyed submissions of the identical payload create two
jobs whose ids are the two distinct fresh uuids. -/
theorem create_job_idempotency
    (goal repo base goal2 repo2 base2 key fresh1 fresh2 : String)
    (hfresh : fresh1 ≠ fresh2)
    (hpayload : goal = goal2 → repo = repo2 → ¬ base = base2) :
    ((JobService.create_job {} fresh1 goal repo base (some key)).2.map
        (fun res => (res.job.job_id, res.reused)) = .ok (fresh1, false))
    ∧ ((JobService.create_job
          (JobService.create_job {} fresh1 goal repo base (some key)).1
          fresh2 goal repo base (some key)).2.map
        (fun res => (res.job.job_id, res.reused)) = .ok (fresh1, true))
    ∧ (JobService.create_job
          (JobService.create_job {} fresh1 goal repo base (some key)).1
          fresh2 goal2 repo2 base2 (some key)
        = ((JobService.create_job {} fresh1 goal repo base (some key)).1,
           .error "idempotency key already used with different request payload"))
    ∧ ((JobService.create_job {} fresh1 goal repo base none).2.map
        (fun res => (res.job.job_id, res.reused)) = .ok (fresh1, false))
    ∧ ((JobService.create_job
          (JobService.create_job {} fresh1 goal repo base none).1
          fresh2 goal repo base none).2.map
        (fun res => (res.job.job_id, res.reused)) = .ok (fresh2, false))
    ∧ fresh1 ≠ fresh2 := by
  refine ⟨?_, ?_, ?_, ?_, ?_, hfresh⟩
  · simp [JobService.create_job, StoreState.get_idempotency, Except.map]
  · simp [JobService.create_job, StoreState.get_idempotency,
      StoreState.create_idempotency, StoreState.create_job,
      StoreState.get_job, requestHash, Except.map]
  · simp [JobService.create_job, StoreState.get_idempotency,
      StoreState.create_idempotency, StoreState.create_job,
      StoreState.get_job, requestHash, Except.map]
    rw [if_pos hpayload]
  · simp [JobService.create_job, StoreState.get_idempotency, Except.map]
  · simp [JobService.create_job, StoreState.get_idempotency,
      StoreState.create_idempotency, StoreState.create_job,
      StoreState.get_job, requestHash, Except.map]

/-- Witness for C4 at concrete strings. -/
theorem create_job_idempotency_witness :
    ((JobService.create_job
        (JobService.create_job {} "uuid-1" "Implement API" "org/repo" "main"
          (some "k1")).1
        "uuid-2" "Implement API" "org/repo" "main" (some "k1")).2.map
      (fun res => (res.job.job_id, res.reused)) = .ok ("uuid-1", true))
    ∧ (JobService.create_job
        (JobService.create_job {} "uuid-1" "Implement API" "org/repo" "main"
          (some "k1")).1
        "uuid-2" "Other goal" "org/repo" "main" (some "k1")).2
      = .error "idempotency key already used with different request payload" := by
  have h := create_job_idempotency "Implement API" "org/repo" "main"
    "Other goal" "org/repo" "main" "k1" "uuid-1" "uuid-2"
    (by decide) (fun h _ => absurd h (by decide))
  refine ⟨h.2.1, ?_⟩
  rw [h.2.2.1]

/-- Witness for C7: with a two-round budget and an executor failing on
attempt 1 and clean on attempt 2, the loop returns a clean report after
exactly 2 attempts, having added exactly 1 AUTO_FIXING event. -/
theorem auto_fix_loop_rounds_witness :
    ∃ (j' : JobRecord) (rep' : ReportV1),
      JobRunner.execute_with_auto_fix execJob samplePlan flakyExec
        = .ok (j', rep', 2)
      ∧ rep'.failures = []
      ∧ countAutoFix j'.history = countAutoFix execJob.history + 1 := by
  have h := (auto_fix_loop_rounds execJob samplePlan flakyExec 2 rfl
    (by omega) rfl).1
    (fun k jk hk hkN => by
      have : k = 1 := by omega
      subst this
      simp [flakyExec])
    (fun jk => by simp [flakyExec])
  simpa using h

end DevCrew
